import Mathlib

/-!
Verification of the syn-zeug `Seq` core (src/syn-zeug/src/seq.rs): a
kind-tagged biological sequence with validated constructors, reversal,
element counting, reverse complement and DNA-to-RNA conversion.

Bytes are modelled as natural numbers (ASCII code points). The parts of
the repository outside src/ (the alphabet table from crate::data and the
nucleotide reverse-complement collaborator from the bio crate) are
modelled from the spec, as noted on their doc comments.
-/

namespace SynZeug

/-- The sequence kind enumeration from seq.rs. -/
inductive Kind where
  | Dna : Kind
  | Rna : Kind
  | Protein : Kind
deriving DecidableEq

/-- The error enumeration from seq.rs. -/
inductive Error where
  | InvalidConversion : Kind → Kind → Error
  | InvalidKind : Kind → Error
  | RevComp : Kind → Error
  | Invalid : Error
deriving DecidableEq

/-- Modelled from the spec: the alphabet table ALPHABETS from crate::data
(not under src/). Strict four-symbol nucleotide alphabets in both letter
cases, and the twenty standard amino acids in both cases for Protein,
given as lists of ASCII code points. -/
def alphabet : Kind → List Nat
  | Kind.Dna => [65, 67, 71, 84, 97, 99, 103, 116]
  | Kind.Rna => [65, 67, 71, 85, 97, 99, 103, 117]
  | Kind.Protein =>
      [65, 67, 68, 69, 70, 71, 72, 73, 75, 76, 77, 78, 80, 81, 82, 83, 84,
       86, 87, 89,
       97, 99, 100, 101, 102, 103, 104, 105, 107, 108, 109, 110, 112, 113,
       114, 115, 116, 118, 119, 121]

/-- Modelled from the spec: the AlphabetClassifier predicate
(`ALPHABETS[&kind].is_word(seq)`): every byte is a legal symbol of the
alphabet of the kind. -/
def isWord (k : Kind) (bs : List Nat) : Bool :=
  bs.all (fun b => decide (b ∈ alphabet k))

/-- The Seq struct from seq.rs: owned bytes plus the kind tag. -/
structure Seq where
  bytes : List Nat
  kind : Kind
deriving DecidableEq

/-- Seq::new_with_kind: validate bytes against the alphabet of the kind;
success wraps them, failure is InvalidKind. -/
def new_with_kind (bs : List Nat) (k : Kind) : Except Error Seq :=
  if isWord k bs then Except.ok ⟨bs, k⟩
  else Except.error (Error.InvalidKind k)

/-- Seq::dna. -/
def Seq.dna (bs : List Nat) : Except Error Seq := new_with_kind bs Kind.Dna

/-- Seq::rna. -/
def Seq.rna (bs : List Nat) : Except Error Seq := new_with_kind bs Kind.Rna

/-- Seq::protein. -/
def Seq.protein (bs : List Nat) : Except Error Seq :=
  new_with_kind bs Kind.Protein

/-- Seq::new: try dna, or else rna, or else protein, and collapse the
final error to the generic Invalid, mirroring the or_else chain and
map_err in the source. -/
def Seq.new (bs : List Nat) : Except Error Seq :=
  match Seq.dna bs with
  | Except.ok s => Except.ok s
  | Except.error _ =>
    match Seq.rna bs with
    | Except.ok s => Except.ok s
    | Except.error _ =>
      match Seq.protein bs with
      | Except.ok s => Except.ok s
      | Except.error _ => Except.error Error.Invalid

/-- Seq::len. -/
def Seq.len (s : Seq) : Nat := s.bytes.length

/-- Seq::is_empty. -/
def Seq.is_empty (s : Seq) : Bool := s.bytes.isEmpty

/-- Seq::rev: reverse the bytes, keep the kind. -/
def Seq.rev (s : Seq) : Seq := ⟨s.bytes.reverse, s.kind⟩

/-- Modelled from the spec: the ByteFrequencyMap collaborator (ByteMap
from crate::data, not under src/), a zero-initialised per-byte counter
read as a function from byte value to count. Seq::count_elements folds
over the bytes incrementing the counter of each. -/
def Seq.count_elements (s : Seq) : Nat → Nat :=
  s.bytes.foldl (fun m b => fun x => if x = b then m x + 1 else m x)
    (fun _ => 0)

/-- Modelled from the spec: the per-byte nucleotide pairing of the
NucleotideComplementer collaborator (bio crate, external): A pairs with T
for DNA and with U for RNA, C pairs with G, case-preserving; bytes
without a defined partner are left unchanged. This is the DNA pairing,
A pairs with T. -/
def complementDna (b : Nat) : Nat :=
  if b = 65 then 84 else if b = 84 then 65
  else if b = 67 then 71 else if b = 71 then 67
  else if b = 97 then 116 else if b = 116 then 97
  else if b = 99 then 103 else if b = 103 then 99
  else b

/-- Modelled from the spec: the RNA pairing, A pairs with U. -/
def complementRna (b : Nat) : Nat :=
  if b = 65 then 85 else if b = 85 then 65
  else if b = 67 then 71 else if b = 71 then 67
  else if b = 97 then 117 else if b = 117 then 97
  else if b = 99 then 103 else if b = 103 then 99
  else b

/-- Dispatch of the pairing by kind (Protein never reaches the
complementer in the source, so any total extension is unobservable; the
identity is used). -/
def complement (k : Kind) (b : Nat) : Nat :=
  match k with
  | Kind.Dna => complementDna b
  | Kind.Rna => complementRna b
  | Kind.Protein => b

/-- Modelled from the spec: the NucleotideComplementer reverse-complement
(dna::revcomp and rna::revcomp of the bio crate, external): complement
each byte and reverse the order. -/
def revcomp (k : Kind) (bs : List Nat) : List Nat :=
  (bs.map (complement k)).reverse

/-- Seq::reverse_complement: delegate to the nucleotide
reverse-complement for Dna and Rna, fail with RevComp for Protein. -/
def Seq.reverse_complement (s : Seq) : Except Error Seq :=
  match s.kind with
  | Kind.Dna => Except.ok ⟨revcomp Kind.Dna s.bytes, s.kind⟩
  | Kind.Rna => Except.ok ⟨revcomp Kind.Rna s.bytes, s.kind⟩
  | Kind.Protein => Except.error (Error.RevComp s.kind)

/-- Seq::convert: identity when the target kind equals the receiver
kind; Dna to Rna adds one to each T or t byte (the source exploits that
U directly follows T in ASCII, in both cases); every other pair fails
with InvalidConversion. -/
def Seq.convert (s : Seq) (k : Kind) : Except Error Seq :=
  if s.kind = k then Except.ok s
  else
    match s.kind, k with
    | Kind.Dna, Kind.Rna =>
        Except.ok
          ⟨s.bytes.map (fun b => if b = 84 ∨ b = 116 then b + 1 else b),
           Kind.Rna⟩
    | f, t => Except.error (Error.InvalidConversion f t)

/-- The class invariant of Seq: every byte belongs to the alphabet of the
kind tag. -/
def Valid (s : Seq) : Prop := isWord s.kind s.bytes = true

instance (s : Seq) : Decidable (Valid s) := by
  unfold Valid
  infer_instance

/-- The letter-for-letter substitution the spec describes for the Dna to
Rna conversion: the T byte (84) becomes the U byte (85), the t byte (116)
becomes the u byte (117), every other byte is unchanged. -/
def tToU (b : Nat) : Nat :=
  if b = 84 then 85 else if b = 116 then 117 else b

/-- ASCII code points of the characters of a string, used to transcribe
the concrete byte-string literals of the spec and the tests. -/
def strBytes (s : String) : List Nat := s.data.map Char.toNat

/-! ### Helper lemmas -/

/-- A sequence accepted by new_with_kind satisfies the class invariant. -/
theorem valid_of_new_with_kind {bs : List Nat} {k : Kind} {s : Seq}
    (h : new_with_kind bs k = Except.ok s) : Valid s := by
  unfold new_with_kind at h
  split at h
  · rename_i hw
    cases h
    exact hw
  · cases h

/-- Alphabet membership is untouched by reversal. -/
theorem isWord_reverse (k : Kind) (bs : List Nat) :
    isWord k bs.reverse = isWord k bs := by
  simp [isWord, List.all_eq_true]

/-- The nucleotide pairing maps each alphabet symbol back into the same
alphabet (checked over all three finite alphabets). -/
theorem complement_mem_alphabet (k : Kind) :
    ((alphabet k).all fun a => decide (complement k a ∈ alphabet k)) = true := by
  cases k <;> decide

/-- The DNA pairing fixes every byte outside its eight paired values. -/
theorem complementDna_eq_self {b : Nat} (h1 : b ≠ 65) (h2 : b ≠ 84)
    (h3 : b ≠ 67) (h4 : b ≠ 71) (h5 : b ≠ 97) (h6 : b ≠ 116) (h7 : b ≠ 99)
    (h8 : b ≠ 103) : complementDna b = b := by
  unfold complementDna
  simp [h1, h2, h3, h4, h5, h6, h7, h8]

/-- The RNA pairing fixes every byte outside its eight paired values. -/
theorem complementRna_eq_self {b : Nat} (h1 : b ≠ 65) (h2 : b ≠ 85)
    (h3 : b ≠ 67) (h4 : b ≠ 71) (h5 : b ≠ 97) (h6 : b ≠ 117) (h7 : b ≠ 99)
    (h8 : b ≠ 103) : complementRna b = b := by
  unfold complementRna
  simp [h1, h2, h3, h4, h5, h6, h7, h8]

/-- The nucleotide pairing is an involution on every byte. -/
theorem complement_complement (k : Kind) (b : Nat) :
    complement k (complement k b) = b := by
  cases k
  · show complementDna (complementDna b) = b
    by_cases h1 : b = 65
    · subst h1; rfl
    by_cases h2 : b = 84
    · subst h2; rfl
    by_cases h3 : b = 67
    · subst h3; rfl
    by_cases h4 : b = 71
    · subst h4; rfl
    by_cases h5 : b = 97
    · subst h5; rfl
    by_cases h6 : b = 116
    · subst h6; rfl
    by_cases h7 : b = 99
    · subst h7; rfl
    by_cases h8 : b = 103
    · subst h8; rfl
    have h := complementDna_eq_self h1 h2 h3 h4 h5 h6 h7 h8
    rw [h, h]
  · show complementRna (complementRna b) = b
    by_cases h1 : b = 65
    · subst h1; rfl
    by_cases h2 : b = 85
    · subst h2; rfl
    by_cases h3 : b = 67
    · subst h3; rfl
    by_cases h4 : b = 71
    · subst h4; rfl
    by_cases h5 : b = 97
    · subst h5; rfl
    by_cases h6 : b = 117
    · subst h6; rfl
    by_cases h7 : b = 99
    · subst h7; rfl
    by_cases h8 : b = 103
    · subst h8; rfl
    have h := complementRna_eq_self h1 h2 h3 h4 h5 h6 h7 h8
    rw [h, h]
  · rfl

/-- Reverse complementation applied twice restores the byte list. -/
theorem revcomp_revcomp (k : Kind) (bs : List Nat) :
    revcomp k (revcomp k bs) = bs := by
  have h : complement k ∘ complement k = id := funext (complement_complement k)
  simp [revcomp, List.map_reverse, List.map_map, h]

/-- Reverse complementation keeps a word inside its alphabet. -/
theorem isWord_revcomp {k : Kind} {bs : List Nat} (h : isWord k bs = true) :
    isWord k (revcomp k bs) = true := by
  unfold revcomp
  rw [isWord_reverse]
  simp only [isWord, List.all_eq_true, decide_eq_true_eq] at h ⊢
  intro b hb
  obtain ⟨a, ha, rfl⟩ := List.mem_map.1 hb
  have hmem := complement_mem_alphabet k
  simp only [List.all_eq_true, decide_eq_true_eq] at hmem
  exact hmem a (h a ha)

/-- The T-to-U substitution of the Dna-to-Rna conversion sends every DNA
alphabet symbol to an RNA alphabet symbol (checked over the finite
alphabet). -/
theorem tToU_mem_rna :
    ((alphabet Kind.Dna).all fun b =>
      decide ((if b = 84 ∨ b = 116 then b + 1 else b) ∈ alphabet Kind.Rna))
      = true := by
  decide

/-- Every alphabet symbol is an ASCII byte below 256 (checked over all
three finite alphabets). -/
theorem alphabet_lt_256 (k : Kind) :
    ((alphabet k).all fun b => decide (b < 256)) = true := by
  cases k <;> decide

/-- The count accumulated by the fold of count_elements is the number of
occurrences, for any starting counter. -/
theorem count_foldl (x : Nat) (l : List Nat) :
    ∀ m : Nat → Nat,
      (l.foldl (fun m b => fun y => if y = b then m y + 1 else m y) m) x
        = m x + l.count x := by
  induction l with
  | nil => intro m; simp
  | cons a l ih =>
      intro m
      rw [List.foldl_cons, ih, List.count_cons]
      by_cases hxa : x = a <;> simp [hxa, beq_iff_eq] <;> omega

/-- At every byte value, count_elements reports the number of
occurrences of that byte in the sequence. -/
theorem count_elements_eq_count (s : Seq) (x : Nat) :
    s.count_elements x = s.bytes.count x := by
  unfold Seq.count_elements
  rw [count_foldl]
  omega

/-- The byte-wise substitution of the Dna-to-Rna conversion sends every
DNA word to an RNA word. -/
theorem isWord_map_tToU {bs : List Nat} (h : isWord Kind.Dna bs = true) :
    isWord Kind.Rna
      (bs.map fun b => if b = 84 ∨ b = 116 then b + 1 else b) = true := by
  simp only [isWord, List.all_eq_true, decide_eq_true_eq] at h ⊢
  intro c hc
  obtain ⟨a, ha, rfl⟩ := List.mem_map.1 hc
  have hm := tToU_mem_rna
  simp only [List.all_eq_true, decide_eq_true_eq] at hm
  exact hm a (h a ha)

/-- Summing the per-byte occurrence counts over the whole byte domain
recovers the length, for lists of bytes below 256. -/
theorem sum_count_range {l : List Nat} (h : ∀ b ∈ l, b < 256) :
    (∑ b ∈ Finset.range 256, l.count b) = l.length := by
  induction l with
  | nil => simp
  | cons a l ih =>
      have ha : a < 256 := h a (List.mem_cons_self a l)
      have ih2 := ih fun b hb => h b (List.mem_cons_of_mem a hb)
      simp only [List.count_cons, List.length_cons, beq_iff_eq]
      rw [Finset.sum_add_distrib, ih2,
        Finset.sum_ite_eq (Finset.range 256) a fun _ => 1]
      simp [Finset.mem_range, ha]

/-- Sanity: the reverse-complement model reproduces the concrete DNA
scenario of the spec. -/
theorem revcomp_dna_example :
    revcomp Kind.Dna (strBytes "AAAACCCGGT") = strBytes "ACCGGGTTTT" := by
  decide

/-- Sanity: the reverse-complement model preserves case per position as
in the concrete mixed-case scenario of the spec. -/
theorem revcomp_dna_case_example :
    revcomp Kind.Dna (strBytes "aaaacCCGGT") = strBytes "ACCGGgtttt" := by
  decide

/-! ### Claim theorems -/

/-- C2: Seq::new validates in the fixed order Dna, Rna, Protein and
returns the first success; when all three alphabets reject the bytes it
returns the generic Invalid error, discarding the per-kind InvalidKind
reasons. -/
theorem new_tries_dna_rna_protein_in_order (bs : List Nat) :
    Seq.new bs =
      (if isWord Kind.Dna bs then Except.ok ⟨bs, Kind.Dna⟩
       else if isWord Kind.Rna bs then Except.ok ⟨bs, Kind.Rna⟩
       else if isWord Kind.Protein bs then Except.ok ⟨bs, Kind.Protein⟩
       else Except.error Error.Invalid) := by
  simp only [Seq.new, Seq.dna, Seq.rna, Seq.protein, new_with_kind]
  by_cases h1 : isWord Kind.Dna bs <;> by_cases h2 : isWord Kind.Rna bs <;>
    by_cases h3 : isWord Kind.Protein bs <;> simp [h1, h2, h3]

/-- C6: rev keeps the kind, reverses the bytes, and is an involution. -/
theorem rev_reverses_bytes_and_is_involution (s : Seq) :
    s.rev.kind = s.kind ∧ s.rev.bytes = s.bytes.reverse ∧ s.rev.rev = s := by
  refine ⟨rfl, rfl, ?_⟩
  simp [Seq.rev]

/-- C7: converting a sequence to its own kind succeeds and returns the
sequence unchanged, for all three kinds. -/
theorem convert_identity (s : Seq) : s.convert s.kind = Except.ok s := by
  simp [Seq.convert]

/-- C8: every conversion between distinct kinds other than Dna to Rna
fails with InvalidConversion carrying the source and target kinds. -/
theorem convert_other_pairs_fail (s : Seq) (k : Kind) (h1 : s.kind ≠ k)
    (h2 : ¬(s.kind = Kind.Dna ∧ k = Kind.Rna)) :
    s.convert k = Except.error (Error.InvalidConversion s.kind k) := by
  obtain ⟨bs, sk⟩ := s
  cases sk <;> cases k <;> simp_all [Seq.convert]

/-- Witness for C8 at the Protein-to-Dna pair of the spec scenario. -/
theorem convert_other_pairs_fail_witness :
    (Seq.mk (strBytes "MAMAPRTEINSTRING") Kind.Protein).convert Kind.Dna
      = Except.error (Error.InvalidConversion Kind.Protein Kind.Dna) :=
  convert_other_pairs_fail _ _ (by decide) (by decide)

/-- C10: auto-detection accepts the empty byte sequence and tags it Dna
(the first kind tried), and the resulting sequence is empty. -/
theorem new_empty_is_dna :
    Seq.new [] = Except.ok ⟨[], Kind.Dna⟩ ∧
      (Seq.mk [] Kind.Dna).kind = Kind.Dna ∧
      (Seq.mk [] Kind.Dna).is_empty = true :=
  ⟨rfl, rfl, rfl⟩

/-- C3: converting any Dna-kind sequence to Rna succeeds and maps each
byte by the T-to-U substitution (preserving length and per-position
case), and the concrete spec scenario converts as stated. -/
theorem convert_dna_to_rna_substitutes_t_with_u :
    (∀ s : Seq, s.kind = Kind.Dna →
      s.convert Kind.Rna = Except.ok ⟨s.bytes.map tToU, Kind.Rna⟩) ∧
    (Seq.dna (strBytes "GATGGAACTTGACTACGTAAATT")).bind
        (fun t => t.convert Kind.Rna)
      = Seq.rna (strBytes "GAUGGAACUUGACUACGUAAAUU") := by
  constructor
  · intro s h
    obtain ⟨bs, sk⟩ := s
    simp only at h
    subst h
    simp only [Seq.convert, reduceCtorEq, if_false]
    have hfg : (fun b => if b = 84 ∨ b = 116 then b + 1 else b) = tToU := by
      funext b
      unfold tToU
      by_cases h1 : b = 84 <;> by_cases h2 : b = 116 <;> simp [h1, h2]
    rw [hfg]
  · rfl

/-- Witness for C3 at the concrete DNA spec scenario input. -/
theorem convert_dna_to_rna_substitutes_t_with_u_witness :
    (Seq.mk (strBytes "GATGGAACTTGACTACGTAAATT") Kind.Dna).convert Kind.Rna
      = Except.ok
          ⟨(strBytes "GATGGAACTTGACTACGTAAATT").map tToU, Kind.Rna⟩ :=
  convert_dna_to_rna_substitutes_t_with_u.1 _ rfl

/-- C4: reverse_complement fails exactly on Protein, with RevComp; on
Dna and Rna it succeeds with the reverse complement of the bytes, tagged
with the unchanged kind. -/
theorem reverse_complement_fails_iff_protein (s : Seq) :
    (s.kind = Kind.Protein →
      s.reverse_complement = Except.error (Error.RevComp Kind.Protein)) ∧
    (s.kind ≠ Kind.Protein →
      s.reverse_complement = Except.ok ⟨revcomp s.kind s.bytes, s.kind⟩) := by
  obtain ⟨bs, sk⟩ := s
  cases sk <;> simp [Seq.reverse_complement]

/-- Witness for C4 at the Protein and Dna scenario inputs of the spec. -/
theorem reverse_complement_fails_iff_protein_witness :
    (Seq.mk (strBytes "MAMAPRTEINSTRING") Kind.Protein).reverse_complement
        = Except.error (Error.RevComp Kind.Protein) ∧
      (Seq.mk (strBytes "AAAACCCGGT") Kind.Dna).reverse_complement
        = Except.ok
            ⟨revcomp Kind.Dna (strBytes "AAAACCCGGT"), Kind.Dna⟩ :=
  ⟨(reverse_complement_fails_iff_protein _).1 rfl,
   (reverse_complement_fails_iff_protein _).2 (by decide)⟩

/-- C5: on every valid Dna-kind or Rna-kind sequence, applying
reverse_complement twice returns the original sequence. -/
theorem reverse_complement_involution (s : Seq) (hv : Valid s)
    (hk : s.kind ≠ Kind.Protein) :
    s.reverse_complement.bind Seq.reverse_complement = Except.ok s := by
  obtain ⟨bs, sk⟩ := s
  cases sk
  · simp [Seq.reverse_complement, Except.bind, revcomp_revcomp]
  · simp [Seq.reverse_complement, Except.bind, revcomp_revcomp]
  · exact absurd rfl hk

/-- Witness for C5 at the concrete DNA scenario input of the spec. -/
theorem reverse_complement_involution_witness :
    (Seq.mk (strBytes "AAAACCCGGT") Kind.Dna).reverse_complement.bind
        Seq.reverse_complement
      = Except.ok (Seq.mk (strBytes "AAAACCCGGT") Kind.Dna) :=
  reverse_complement_involution _ (by decide) (by decide)

/-- C1: every sequence produced by a constructor (new_with_kind, dna,
rna, protein, new) satisfies the class invariant, and every operation
that produces a sequence from a valid one (rev, reverse_complement,
convert) produces a valid one: no operation ever returns a Seq whose
bytes leave the alphabet of its kind. -/
theorem seq_operations_preserve_invariant :
    (∀ (bs : List Nat) (k : Kind) (s : Seq),
        new_with_kind bs k = Except.ok s → Valid s) ∧
    (∀ (bs : List Nat) (s : Seq), Seq.dna bs = Except.ok s → Valid s) ∧
    (∀ (bs : List Nat) (s : Seq), Seq.rna bs = Except.ok s → Valid s) ∧
    (∀ (bs : List Nat) (s : Seq), Seq.protein bs = Except.ok s → Valid s) ∧
    (∀ (bs : List Nat) (s : Seq), Seq.new bs = Except.ok s → Valid s) ∧
    (∀ s : Seq, Valid s → Valid s.rev) ∧
    (∀ s t : Seq, Valid s → s.reverse_complement = Except.ok t → Valid t) ∧
    (∀ (s : Seq) (k : Kind) (t : Seq),
        Valid s → s.convert k = Except.ok t → Valid t) := by
  refine ⟨fun bs k s h => valid_of_new_with_kind h,
          fun bs s h => valid_of_new_with_kind h,
          fun bs s h => valid_of_new_with_kind h,
          fun bs s h => valid_of_new_with_kind h,
          ?_, ?_, ?_, ?_⟩
  · intro bs s h
    unfold Seq.new at h
    split at h
    · rename_i heq
      cases h
      exact valid_of_new_with_kind heq
    · split at h
      · rename_i heq
        cases h
        exact valid_of_new_with_kind heq
      · split at h
        · rename_i heq
          cases h
          exact valid_of_new_with_kind heq
        · cases h
  · intro s hv
    show isWord s.kind s.bytes.reverse = true
    rw [isWord_reverse]
    exact hv
  · intro s t hv h
    obtain ⟨bs, sk⟩ := s
    cases sk
    · simp only [Seq.reverse_complement] at h
      cases h
      exact isWord_revcomp hv
    · simp only [Seq.reverse_complement] at h
      cases h
      exact isWord_revcomp hv
    · simp only [Seq.reverse_complement] at h
      cases h
  · intro s k t hv h
    obtain ⟨bs, sk⟩ := s
    unfold Seq.convert at h
    split at h
    · cases h
      exact hv
    · cases sk <;> cases k <;>
        first
        | (cases h
           exact isWord_map_tToU hv)
        | cases h

/-- Witness for C1: each component applied at a concrete input. -/
theorem seq_operations_preserve_invariant_witness :
    Valid (Seq.mk (strBytes "AC") Kind.Dna) ∧
    Valid (Seq.mk (strBytes "ACGT") Kind.Dna) ∧
    Valid (Seq.mk (strBytes "ACGU") Kind.Rna) ∧
    Valid (Seq.mk (strBytes "MK") Kind.Protein) ∧
    Valid (Seq.mk (strBytes "GT") Kind.Dna) ∧
    Valid ((Seq.mk (strBytes "ACGT") Kind.Dna).rev) ∧
    Valid (Seq.mk (revcomp Kind.Dna (strBytes "ACGT")) Kind.Dna) ∧
    Valid
      (Seq.mk
        ((strBytes "ACGT").map fun b => if b = 84 ∨ b = 116 then b + 1 else b)
        Kind.Rna) :=
  ⟨seq_operations_preserve_invariant.1 (strBytes "AC") Kind.Dna _ rfl,
   seq_operations_preserve_invariant.2.1 (strBytes "ACGT") _ rfl,
   seq_operations_preserve_invariant.2.2.1 (strBytes "ACGU") _ rfl,
   seq_operations_preserve_invariant.2.2.2.1 (strBytes "MK") _ rfl,
   seq_operations_preserve_invariant.2.2.2.2.1 (strBytes "GT") _ rfl,
   seq_operations_preserve_invariant.2.2.2.2.2.1 _ (by decide),
   seq_operations_preserve_invariant.2.2.2.2.2.2.1
     (Seq.mk (strBytes "ACGT") Kind.Dna) _ (by decide) rfl,
   seq_operations_preserve_invariant.2.2.2.2.2.2.2
     (Seq.mk (strBytes "ACGT") Kind.Dna) Kind.Rna _ (by decide) rfl⟩

/-- C9: count_elements reports, at every byte value, the number of
occurrences of that byte in the sequence, and the counts over the whole
byte domain sum to the length of the sequence. -/
theorem count_elements_counts_occurrences (s : Seq) (hv : Valid s) :
    (∀ x, s.count_elements x = s.bytes.count x) ∧
    (∑ b ∈ Finset.range 256, s.count_elements b) = s.len := by
  refine ⟨count_elements_eq_count s, ?_⟩
  have hb : ∀ b ∈ s.bytes, b < 256 := by
    have h := hv
    simp only [Valid, isWord, List.all_eq_true, decide_eq_true_eq] at h
    intro b hbs
    have hlt := alphabet_lt_256 s.kind
    simp only [List.all_eq_true, decide_eq_true_eq] at hlt
    exact hlt b (h b hbs)
  calc (∑ b ∈ Finset.range 256, s.count_elements b)
      = ∑ b ∈ Finset.range 256, s.bytes.count b :=
        Finset.sum_congr rfl fun b _ => count_elements_eq_count s b
    _ = s.bytes.length := sum_count_range hb

/-- Witness for C9 at a concrete DNA sequence. -/
theorem count_elements_counts_occurrences_witness :
    (∑ b ∈ Finset.range 256,
        (Seq.mk (strBytes "ACGT") Kind.Dna).count_elements b)
      = (Seq.mk (strBytes "ACGT") Kind.Dna).len :=
  (count_elements_counts_occurrences _ (by decide)).2

end SynZeug
